import Mathlib

/-!
Shallow embedding of the s3gof3r public façade (src/s3gof3r.go): the
`Keys`/`S3`/`Bucket`/`Config` data model, the `New`, `S3.Bucket`,
`Bucket.GetReader`, `Bucket.PutWriter` and `Bucket.Url` operations, and a
model (from the specification) of the parallel download engine's reorder
buffer, since the getter/putter implementation files are not part of the
given source.

Go pointers to `Config` are modelled by a small heap mapping references
(natural numbers) to `Config` values; the global `DefaultConfig` pointer
lives at reference 0.  A Go `panic` propagating out of a function is
modelled by the `Except.error` branch of its result.
-/

/-- Credential pair for an AWS account, used for signing http requests. -/
structure Keys where
  AccessKey : String
  SecretKey : String
deriving Repr, DecidableEq

/-- An S3-compatible service handle: a service domain plus embedded Keys. -/
structure S3 where
  Domain : String
  keys : Keys
deriving Repr, DecidableEq

/-- A bucket: an embedded (non-owning, pointer) reference to its S3 account
and a name. -/
structure Bucket where
  s3 : S3
  Name : String
deriving Repr, DecidableEq

/-- Forwarding accessor generated by Go struct embedding: b.Domain is
b.S3.Domain. -/
def Bucket.Domain (b : Bucket) : String := b.s3.Domain

/-- Forwarding accessor generated by Go struct embedding: b.Keys. -/
def Bucket.keys (b : Bucket) : Keys := b.s3.keys

/-- Modelled from the spec: the http client type is external (net/http);
the spec treats it as "a client with configurable timeout", so only the
timeout (a Go time.Duration, in nanoseconds) is modelled. -/
structure HttpClient where
  timeout : Int
deriving Repr, DecidableEq

/-- Transfer configuration.  The Go field `*http.Client` is a nil-able
pointer, modelled as an `Option`. -/
structure Config where
  Client : Option HttpClient
  Concurrency : Int
  PartSize : Int
  NTry : Int
  Md5Check : Bool
  Scheme : String
deriving Repr, DecidableEq

/-- Modelled from the spec: the constant `mb` used by `DefaultConfig` is
defined in a repository file not under src/; the spec fixes the default
part size to 20 MiB, i.e. `mb` is one mebibyte in bytes. -/
def mb : Int := 2 ^ 20

/-- Initial contents of the global `DefaultConfig` variable. -/
def DefaultConfig : Config :=
  { Client := none
    Concurrency := 10
    PartSize := 20 * mb
    NTry := 10
    Md5Check := true
    Scheme := "https" }

/-- Go `time.Second` in nanoseconds (time.Duration unit). -/
def timeSecond : Int := 1000000000

/-- The http client timeout constant: 5 * time.Second. -/
def clientTimeout : Int := 5 * timeSecond

/-- Initial contents of the global `DefaultDomain` variable. -/
def DefaultDomain : String := "s3.amazonaws.com"

/-- Modelled from the spec: `ClientWithTimeout` lives in a repository file
not under src/; per the spec the transport is "a client with configurable
timeout", so it returns a client carrying the given timeout. -/
def ClientWithTimeout (n : Int) : HttpClient := ⟨n⟩

/-- Returns a new S3; domain defaults to DefaultDomain if empty. -/
def New (domain : String) (keys : Keys) : S3 :=
  if domain = "" then ⟨DefaultDomain, keys⟩ else ⟨domain, keys⟩

/-- Returns a bucket on the S3 account (Go: `func (s3 *S3) Bucket(name
string) *Bucket { return &Bucket{s3, name} }`). -/
def S3.Bucket (s3 : S3) (name : String) : Bucket := ⟨s3, name⟩

/-- Character class test used by net/url getScheme: ASCII letter. -/
def isAlphaCh (c : Char) : Bool :=
  ('a' ≤ c && c ≤ 'z') || ('A' ≤ c && c ≤ 'Z')

/-- Character class test used by net/url getScheme: ASCII digit. -/
def isDigitCh (c : Char) : Bool :=
  '0' ≤ c && c ≤ '9'

/-- Model of Go net/url `getScheme`: scans the raw URL for the scheme
delimiter, returning (scheme, remainder) or the "missing protocol scheme"
error when the first character is already a colon. `raw` is the full
character list, `i` the current index, `rem` the unscanned suffix. -/
def getSchemeAux (raw : List Char) (i : Nat) : List Char → Except String (String × String)
  | [] => .ok ("", String.mk raw)
  | c :: rest =>
    if isAlphaCh c then getSchemeAux raw (i + 1) rest
    else if isDigitCh c || c = '+' || c = '-' || c = '.' then
      if i = 0 then .ok ("", String.mk raw)
      else getSchemeAux raw (i + 1) rest
    else if c = ':' then
      if i = 0 then .error "missing protocol scheme"
      else .ok (String.mk (raw.take i), String.mk (raw.drop (i + 1)))
    else .ok ("", String.mk raw)

/-- Model of Go net/url `getScheme` on a string. -/
def getScheme (raw : String) : Except String (String × String) :=
  getSchemeAux raw.toList 0 raw.toList

/-- The parsed-URL value: only the fields the façade code depends on
(scheme and the rest of the url) are modelled. -/
structure URLv where
  Scheme : String
  rest : String
deriving Repr, DecidableEq

/-- Model of the scheme-handling fragment of Go net/url `Parse`: it fails
exactly when `getScheme` fails (other parse failures of the full Go parser,
e.g. control characters, are outside the inputs the façade builds). -/
def urlParse (raw : String) : Except String URLv :=
  match getScheme raw with
  | .error e => .error e
  | .ok (s, rest) => .ok ⟨s, rest⟩

/-- The string composed by Bucket.Url via fmt.Sprintf "%s://%s.%s/%s". -/
def composedUrl (b : Bucket) (path : String) (c : Config) : String :=
  c.Scheme ++ "://" ++ b.Name ++ "." ++ b.s3.Domain ++ "/" ++ path

/-- Bucket.Url: parses the composed url; on a parse failure the Go code
panics (modelled as `Except.error`), so the Go signature returns a bare
url.URL with no error value. -/
def Bucket.Url (b : Bucket) (path : String) (c : Config) : Except String URLv :=
  urlParse (composedUrl b path c)

/-- A heap of Config values addressed by references, modelling Go's
`*Config` pointers. -/
def Heap : Type := Nat → Config

/-- Heap update at one reference. -/
def Heap.write (hp : Heap) (r : Nat) (c : Config) : Heap :=
  fun r2 => if r2 = r then c else hp r2

/-- The reference at which the global `DefaultConfig` pointer lives. -/
def defaultConfigRef : Nat := 0

/-- The program's initial heap: `DefaultConfig` holds its initial value
(unused cells carry the same value, which is irrelevant). -/
def initHeap : Heap := fun _ => DefaultConfig

/-- Go http.Header: a map from header names to lists of values, modelled
as an association list. -/
abbrev Header : Type := List (String × List String)

/-- Modelled from the spec: `newGetter` is in a repository file not under
src/; per the spec it creates the download session from the parsed url,
the effective config snapshot and the bucket. -/
structure Getter where
  url : URLv
  config : Config
  bucket : Bucket
deriving Repr, DecidableEq

/-- Modelled from the spec: `newPutter` is in a repository file not under
src/; per the spec it creates the upload session from the parsed url, the
caller-supplied headers (attached to the object-creating request), the
effective config snapshot and the bucket. -/
structure Putter where
  url : URLv
  putHeaders : Header
  config : Config
  bucket : Bucket
deriving Repr, DecidableEq

/-- Modelled from the spec: the headers the putter attaches to the HTTP
request that creates the object are exactly the headers it was given. -/
def Putter.requestHeaders (p : Putter) : Header := p.putHeaders

/-- The `if c.Client == nil { c.Client = ClientWithTimeout(clientTimeout) }`
step shared by GetReader and PutWriter: returns the effective config and
the heap after the conditional in-place store through the pointer. -/
def installClient (hp : Heap) (r : Nat) : Config × Heap :=
  match (hp r).Client with
  | none =>
    let c := { hp r with Client := some (ClientWithTimeout clientTimeout) }
    (c, hp.write r c)
  | some _ => (hp r, hp)

/-- The value GetReader returns once the effective config is fixed:
`return newGetter(b.Url(path, c), c, b)`, with Url's panic propagating. -/
def getOutcome (b : Bucket) (path : String) (c : Config) : Except String Getter :=
  match b.Url path c with
  | .ok u => .ok ⟨u, c, b⟩
  | .error e => .error e

/-- The value PutWriter returns once the effective config is fixed:
`return newPutter(b.Url(path, c), h, c, b)`, with Url's panic propagating. -/
def putOutcome (b : Bucket) (path : String) (hdr : Header) (c : Config) :
    Except String Putter :=
  match b.Url path c with
  | .ok u => .ok ⟨u, hdr, c, b⟩
  | .error e => .error e

/-- Bucket.GetReader: `cref` is the caller's `*Config` argument (none for
nil, in which case the global DefaultConfig pointer is used); returns the
created getter (or a propagated panic) together with the updated heap. -/
def Bucket.GetReader (b : Bucket) (path : String) (cref : Option Nat) (hp : Heap) :
    Except String Getter × Heap :=
  let step := installClient hp (cref.getD defaultConfigRef)
  (getOutcome b path step.1, step.2)

/-- Bucket.PutWriter: like GetReader but also carries the caller-supplied
headers through to the putter. -/
def Bucket.PutWriter (b : Bucket) (path : String) (hdr : Header) (cref : Option Nat)
    (hp : Heap) : Except String Putter × Heap :=
  let step := installClient hp (cref.getD defaultConfigRef)
  (putOutcome b path hdr step.1, step.2)

/-!
Model of the download engine's reorder buffer, from the spec (the getter
implementation file is not under src/): parts are indexed 0-based; as each
part's bytes arrive they are buffered until the part's index equals the
stream's next expected index, then all contiguous ready parts starting at
that index are delivered in order and evicted.
-/

/-- State of the download reorder buffer: bytes already delivered to the
caller, indices buffered (arrived but not yet delivered), and the next
expected part index. -/
structure GetState where
  delivered : List Nat
  ready : List Nat
  next : Nat
deriving Repr, DecidableEq

/-- Modelled from the spec: deliver all contiguous ready parts starting at
the next expected index, evicting each from the buffer.  `fuel` bounds the
recursion; `ready.length` is always sufficient since each delivery evicts
one buffered part. -/
def flushFuel (parts : List (List Nat)) : Nat → GetState → GetState
  | 0, st => st
  | fuel + 1, st =>
    if st.next ∈ st.ready then
      flushFuel parts fuel
        { delivered := st.delivered ++ parts.getD st.next []
          ready := st.ready.erase st.next
          next := st.next + 1 }
    else st

/-- Deliver all contiguous ready parts starting at the next expected index. -/
def flushReady (parts : List (List Nat)) (st : GetState) : GetState :=
  flushFuel parts st.ready.length st

/-- Modelled from the spec: one HTTP response arrival — part `i`'s bytes
are buffered, then contiguous ready parts are delivered. -/
def arrivePart (parts : List (List Nat)) (st : GetState) (i : Nat) : GetState :=
  flushReady parts { st with ready := i :: st.ready }

/-- Modelled from the spec: run a whole download in which the parts'
responses arrive in the order given by `arrivals`. -/
def runGetter (parts : List (List Nat)) (arrivals : List Nat) : GetState :=
  arrivals.foldl (arrivePart parts) ⟨[], [], 0⟩

/-! Concrete fixtures shared by the witnesses and counterexamples. -/

/-- A sample credential pair. -/
def sampleKeys : Keys := ⟨"AK", "SK"⟩

/-- A sample bucket named bkt on the default domain. -/
def sampleBucket : Bucket := ⟨⟨"s3.amazonaws.com", sampleKeys⟩, "bkt"⟩

/-- A sample caller-supplied header set. -/
def sampleHeader : Header := [("x-amz-meta-a", ["v"])]

/-- A heap whose reference 1 holds a config with a caller-supplied client. -/
def heapWithClient : Heap := initHeap.write 1 { DefaultConfig with Client := some ⟨7⟩ }

/-- A heap whose reference 1 holds a config with an empty url scheme. -/
def heapEmptyScheme : Heap := initHeap.write 1 { DefaultConfig with Scheme := "" }

/-- The default config after the 5-second default client is installed. -/
def defaultWithClient : Config :=
  { DefaultConfig with Client := some (ClientWithTimeout clientTimeout) }

/-- The parsed url of object key under sampleBucket with the https scheme. -/
def sampleUrl : URLv := ⟨"https", "//bkt.s3.amazonaws.com/key"⟩

/-- The putter created by a sample successful PutWriter call. -/
def samplePutter : Putter := ⟨sampleUrl, sampleHeader, defaultWithClient, sampleBucket⟩

/-! Theorems settling the claims. -/

/-- C3: the default configuration value has exactly the documented
defaults: Concurrency 10, PartSize 20 MiB, NTry 10, Md5Check true and
Scheme https. -/
theorem defaultConfig_has_documented_defaults :
    DefaultConfig.Concurrency = 10 ∧ DefaultConfig.PartSize = 20 * 2 ^ 20 ∧
    DefaultConfig.NTry = 10 ∧ DefaultConfig.Md5Check = true ∧
    DefaultConfig.Scheme = "https" := by
  refine ⟨rfl, ?_, rfl, rfl, rfl⟩
  decide

/-- C6: s3.Bucket n returns a bucket whose Name is n and whose account
reference is the given S3 handle, with the embedded forwarding accessors
returning the account's domain and keys; S3.Bucket is a pure function of
the handle, so the S3 value itself is unchanged by the call. -/
theorem bucket_of_s3_fields (s3 : S3) (n : String) :
    (s3.Bucket n).Name = n ∧ (s3.Bucket n).s3 = s3 ∧
    (s3.Bucket n).Domain = s3.Domain ∧ (s3.Bucket n).keys = s3.keys :=
  ⟨rfl, rfl, rfl, rfl⟩

/-- C8: New with an empty domain returns an account on the default domain
s3.amazonaws.com; New with a non-empty domain d returns an account on d;
in both cases the returned account carries the given keys. -/
theorem new_s3_domain_defaulting (k : Keys) (d : String) (hd : d ≠ "") :
    (New "" k).Domain = DefaultDomain ∧ (New "" k).keys = k ∧
    (New d k).Domain = d ∧ (New d k).keys = k := by
  refine ⟨rfl, rfl, ?_, ?_⟩ <;> simp [New, hd]

/-- Witness for C8 at the concrete domain example.com. -/
theorem new_s3_domain_defaulting_witness :
    (New "" sampleKeys).Domain = DefaultDomain ∧ (New "" sampleKeys).keys = sampleKeys ∧
    (New "example.com" sampleKeys).Domain = "example.com" ∧
    (New "example.com" sampleKeys).keys = sampleKeys :=
  new_s3_domain_defaulting sampleKeys "example.com" (by decide)

/-- C7: whenever PutWriter succeeds, the putter it creates carries the
caller-supplied header set unchanged, and (by the spec model of the
putter) attaches exactly those headers to the object-creating HTTP
request. -/
theorem putWriter_passes_headers (b : Bucket) (path : String) (hdr : Header)
    (cref : Option Nat) (hp : Heap) (p : Putter)
    (hok : (b.PutWriter path hdr cref hp).1 = .ok p) :
    p.putHeaders = hdr ∧ p.requestHeaders = hdr := by
  dsimp only [Bucket.PutWriter, putOutcome] at hok
  split at hok
  · cases hok
    exact ⟨rfl, rfl⟩
  · cases hok

/-- Witness for C7: a concrete successful PutWriter call whose putter
carries the sample headers. -/
theorem putWriter_passes_headers_witness :
    samplePutter.putHeaders = sampleHeader ∧ samplePutter.requestHeaders = sampleHeader :=
  putWriter_passes_headers sampleBucket "key" sampleHeader none initHeap samplePutter
    (by rfl)

/-- C10: when the effective config's client is nil (the config the call
reads through its reference, the default one when the argument is nil),
GetReader and PutWriter install the default client with the 5-second
timeout into the transfer's config; a caller-supplied non-nil client is
used as-is and the heap is left untouched. -/
theorem nil_client_gets_default_timeout (b : Bucket) (path : String) (hdr : Header)
    (cref : Option Nat) (hp : Heap) :
    ((hp (cref.getD defaultConfigRef)).Client = none →
      (∀ g, (b.GetReader path cref hp).1 = .ok g →
        g.config.Client = some (ClientWithTimeout (5 * timeSecond))) ∧
      (∀ p, (b.PutWriter path hdr cref hp).1 = .ok p →
        p.config.Client = some (ClientWithTimeout (5 * timeSecond)))) ∧
    (∀ cl, (hp (cref.getD defaultConfigRef)).Client = some cl →
      (∀ g, (b.GetReader path cref hp).1 = .ok g → g.config.Client = some cl) ∧
      (∀ p, (b.PutWriter path hdr cref hp).1 = .ok p → p.config.Client = some cl) ∧
      (b.GetReader path cref hp).2 = hp ∧ (b.PutWriter path hdr cref hp).2 = hp) := by
  constructor
  · intro hnone
    constructor
    · intro g hg
      dsimp only [Bucket.GetReader, getOutcome, installClient] at hg
      rw [hnone] at hg
      dsimp only at hg
      split at hg
      · cases hg
        simp [clientTimeout]
      · cases hg
    · intro p hpok
      dsimp only [Bucket.PutWriter, putOutcome, installClient] at hpok
      rw [hnone] at hpok
      dsimp only at hpok
      split at hpok
      · cases hpok
        simp [clientTimeout]
      · cases hpok
  · intro cl hcl
    refine ⟨?_, ?_, ?_, ?_⟩
    · intro g hg
      dsimp only [Bucket.GetReader, getOutcome, installClient] at hg
      rw [hcl] at hg
      dsimp only at hg
      split at hg
      · cases hg
        exact hcl
      · cases hg
    · intro p hpok
      dsimp only [Bucket.PutWriter, putOutcome, installClient] at hpok
      rw [hcl] at hpok
      dsimp only at hpok
      split at hpok
      · cases hpok
        exact hcl
      · cases hpok
    · dsimp only [Bucket.GetReader, installClient]
      rw [hcl]
    · dsimp only [Bucket.PutWriter, installClient]
      rw [hcl]

/-- Witness for C10: on the initial heap (nil client) the created getter
carries the 5-second default client; on a heap whose config carries a
client with timeout 7 the created putter keeps that client and the heap is
unchanged. -/
theorem nil_client_gets_default_timeout_witness :
    (⟨sampleUrl, defaultWithClient, sampleBucket⟩ : Getter).config.Client =
      some (ClientWithTimeout (5 * timeSecond)) ∧
    (sampleBucket.PutWriter "key" sampleHeader (some 1) heapWithClient).2 = heapWithClient :=
  ⟨((nil_client_gets_default_timeout sampleBucket "key" sampleHeader none initHeap).1
      (by rfl)).1 ⟨sampleUrl, defaultWithClient, sampleBucket⟩ (by rfl),
   ((nil_client_gets_default_timeout sampleBucket "key" sampleHeader (some 1)
      heapWithClient).2 ⟨7⟩ (by rfl)).2.2.2⟩

/-- C4: a nil Config argument is replaced by the (global) default
configuration before the transfer is created, so on any state in which the
default configuration still holds its documented initial value the nil
call returns exactly the transfer that a call with a reference to the
documented default configuration returns. -/
theorem nil_config_behaves_as_default (b : Bucket) (path : String) (hdr : Header)
    (hp : Heap) (r : Nat) (h0 : hp defaultConfigRef = DefaultConfig)
    (hr : hp r = DefaultConfig) :
    b.GetReader path none hp = b.GetReader path (some defaultConfigRef) hp ∧
    b.PutWriter path hdr none hp = b.PutWriter path hdr (some defaultConfigRef) hp ∧
    (b.GetReader path none hp).1 = (b.GetReader path (some r) hp).1 ∧
    (b.PutWriter path hdr none hp).1 = (b.PutWriter path hdr (some r) hp).1 := by
  refine ⟨rfl, rfl, ?_, ?_⟩ <;>
    simp only [Bucket.GetReader, Bucket.PutWriter, installClient, Option.getD_none,
      Option.getD_some, h0, hr, show DefaultConfig.Client = none from rfl]

/-- Witness for C4 on the initial heap with reference 1 also holding the
documented default configuration. -/
theorem nil_config_behaves_as_default_witness :
    sampleBucket.GetReader "key" none initHeap =
      sampleBucket.GetReader "key" (some defaultConfigRef) initHeap ∧
    sampleBucket.PutWriter "key" sampleHeader none initHeap =
      sampleBucket.PutWriter "key" sampleHeader (some defaultConfigRef) initHeap ∧
    (sampleBucket.GetReader "key" none initHeap).1 =
      (sampleBucket.GetReader "key" (some 1) initHeap).1 ∧
    (sampleBucket.PutWriter "key" sampleHeader none initHeap).1 =
      (sampleBucket.PutWriter "key" sampleHeader (some 1) initHeap).1 :=
  nil_config_behaves_as_default sampleBucket "key" sampleHeader initHeap 1 (by rfl) (by rfl)

/-- C9: Bucket.Url reports no error value: whenever the composed string
{scheme}://{bucket}.{domain}/{path} parses, Url returns the parsed URL,
and on a non-nil config whose Scheme is empty the missing-protocol-scheme
parse failure becomes a panic (the error branch of the model) instead,
reachable from both GetReader and PutWriter with such a config. -/
theorem url_panics_instead_of_erroring :
    (∀ b path c u, urlParse (composedUrl b path c) = .ok u → b.Url path c = .ok u) ∧
    sampleBucket.Url "key" { DefaultConfig with Scheme := "" } =
      .error "missing protocol scheme" ∧
    (sampleBucket.GetReader "key" (some 1) heapEmptyScheme).1 =
      .error "missing protocol scheme" ∧
    (sampleBucket.PutWriter "key" sampleHeader (some 1) heapEmptyScheme).1 =
      .error "missing protocol scheme" :=
  ⟨fun _ _ _ _ h => h, rfl, rfl, rfl⟩

/-- Witness for C9: the parse hypothesis discharged at a concrete https
url, giving the parsed URL back from Bucket.Url. -/
theorem url_panics_instead_of_erroring_witness :
    sampleBucket.Url "key" DefaultConfig = .ok sampleUrl :=
  url_panics_instead_of_erroring.1 sampleBucket "key" DefaultConfig sampleUrl (by rfl)

/-- C1 counterexample: GetReader does mutate the config it was started
with — on a config whose Client is nil (here the one at reference 1,
holding the documented defaults) the call overwrites its Client field in
place, so the heap cell differs afterwards. -/
theorem getReader_mutates_config_counterexample :
    ((sampleBucket.GetReader "key" (some 1) initHeap).2) 1 ≠ initHeap 1 := by
  decide

/-- C1 amended: GetReader and PutWriter leave every field of the given
config unchanged except Client: a nil Client is overwritten in place with
the default 5-second-timeout client (no other field and no other heap
cell changes); a config whose Client is non-nil is left entirely
unchanged. -/
theorem transfer_mutates_only_nil_client (b : Bucket) (path : String) (hdr : Header)
    (r : Nat) (hp : Heap) :
    ((hp r).Client = none →
      (b.GetReader path (some r) hp).2 r =
        { hp r with Client := some (ClientWithTimeout clientTimeout) } ∧
      (b.PutWriter path hdr (some r) hp).2 r =
        { hp r with Client := some (ClientWithTimeout clientTimeout) } ∧
      (∀ r2, r2 ≠ r → (b.GetReader path (some r) hp).2 r2 = hp r2 ∧
        (b.PutWriter path hdr (some r) hp).2 r2 = hp r2)) ∧
    (∀ cl, (hp r).Client = some cl →
      (b.GetReader path (some r) hp).2 = hp ∧
      (b.PutWriter path hdr (some r) hp).2 = hp) := by
  constructor
  · intro hnone
    refine ⟨?_, ?_, ?_⟩
    · dsimp only [Bucket.GetReader, installClient, Option.getD_some]
      rw [hnone]
      dsimp only [Heap.write]
      simp
    · dsimp only [Bucket.PutWriter, installClient, Option.getD_some]
      rw [hnone]
      dsimp only [Heap.write]
      simp
    · intro r2 hne
      constructor
      · dsimp only [Bucket.GetReader, installClient, Option.getD_some]
        rw [hnone]
        dsimp only [Heap.write]
        simp [hne]
      · dsimp only [Bucket.PutWriter, installClient, Option.getD_some]
        rw [hnone]
        dsimp only [Heap.write]
        simp [hne]
  · intro cl hcl
    constructor
    · dsimp only [Bucket.GetReader, installClient, Option.getD_some]
      rw [hcl]
    · dsimp only [Bucket.PutWriter, installClient, Option.getD_some]
      rw [hcl]

/-- Witness for the amended C1: on the initial heap the cell at reference
1 gets exactly its Client field filled with the 5-second client, cell 0 is
untouched; on a heap whose config at 1 carries client 7 nothing changes. -/
theorem transfer_mutates_only_nil_client_witness :
    (sampleBucket.GetReader "key" (some 1) initHeap).2 1 =
      { initHeap 1 with Client := some (ClientWithTimeout clientTimeout) } ∧
    (sampleBucket.GetReader "key" (some 1) initHeap).2 0 = initHeap 0 ∧
    (sampleBucket.PutWriter "key" sampleHeader (some 1) heapWithClient).2 = heapWithClient :=
  ⟨((transfer_mutates_only_nil_client sampleBucket "key" sampleHeader 1 initHeap).1
      (by rfl)).1,
   (((transfer_mutates_only_nil_client sampleBucket "key" sampleHeader 1 initHeap).1
      (by rfl)).2.2 0 (by decide)).1,
   ((transfer_mutates_only_nil_client sampleBucket "key" sampleHeader 1
      heapWithClient).2 ⟨7⟩ (by rfl)).2⟩

/-- C2: the global DefaultConfig is NOT preserved: the very first
GetReader call with a nil Config writes the default 5-second client into
the shared global through the aliased pointer, so its contents after the
call differ from the initial contents — one transfer's implicit override
is observable by every later one. -/
theorem defaultConfig_mutated_by_nil_config_call :
    ((sampleBucket.GetReader "key" none initHeap).2) defaultConfigRef ≠ DefaultConfig ∧
    ((sampleBucket.GetReader "key" none initHeap).2) defaultConfigRef =
      { DefaultConfig with Client := some (ClientWithTimeout clientTimeout) } := by
  constructor <;> decide

/-- Invariant of the reorder-buffer state once exactly the parts whose
indices are in `arr` have arrived: the buffer holds, without duplicates,
precisely the arrived indices at or beyond the next expected one; every
index below the cursor has arrived; and the delivered bytes are the
concatenation of parts 0 .. next-1 in index order. -/
def GetInv (parts : List (List Nat)) (arr : List Nat) (st : GetState) : Prop :=
  st.ready.Nodup ∧
  (∀ j, j ∈ st.ready ↔ (j ∈ arr ∧ st.next ≤ j)) ∧
  (∀ j, j < st.next → j ∈ arr) ∧
  st.delivered = ((List.range st.next).map (fun j => parts.getD j [])).flatten

/-- The invariant only depends on the arrived indices through membership. -/
lemma GetInv_mem_congr (parts : List (List Nat)) (arr1 arr2 : List Nat)
    (hmm : ∀ j, j ∈ arr1 ↔ j ∈ arr2) (st : GetState)
    (h : GetInv parts arr1 st) : GetInv parts arr2 st := by
  obtain ⟨hnd, hiff, hlt, hdel⟩ := h
  exact ⟨hnd, fun j => by rw [hiff j, hmm j],
    fun j hj => (hmm j).mp (hlt j hj), hdel⟩

/-- Flushing preserves the invariant and leaves the next expected index
outside the buffer, given enough fuel. -/
lemma flushFuel_inv (parts : List (List Nat)) (arr : List Nat) :
    ∀ (fuel : Nat) (st : GetState), st.ready.length ≤ fuel → GetInv parts arr st →
      GetInv parts arr (flushFuel parts fuel st) ∧
      (flushFuel parts fuel st).next ∉ (flushFuel parts fuel st).ready := by
  intro fuel
  induction fuel with
  | zero =>
    intro st hlen hinv
    have hnil : st.ready = [] := List.eq_nil_of_length_eq_zero (Nat.le_zero.mp hlen)
    exact ⟨hinv, by simp [flushFuel, hnil]⟩
  | succ n ih =>
    intro st hlen hinv
    by_cases hmem : st.next ∈ st.ready
    · have hstep : flushFuel parts (n + 1) st = flushFuel parts n
          ⟨st.delivered ++ parts.getD st.next [], st.ready.erase st.next, st.next + 1⟩ := by
        simp [flushFuel, hmem]
      rw [hstep]
      obtain ⟨hnd, hiff, hlt, hdel⟩ := hinv
      apply ih
      · show (st.ready.erase st.next).length ≤ n
        have hlen2 := List.length_erase_of_mem hmem
        have hpos : 0 < st.ready.length := List.length_pos.mpr (List.ne_nil_of_mem hmem)
        omega
      · dsimp only [GetInv]
        refine ⟨hnd.erase _, ?_, ?_, ?_⟩
        · intro j
          rw [hnd.mem_erase_iff, hiff j]
          constructor
          · rintro ⟨hne, hj, hle⟩
            refine ⟨hj, ?_⟩
            omega
          · rintro ⟨hj, hle⟩
            exact ⟨by omega, hj, by omega⟩
        · intro j hj
          rcases Nat.lt_or_ge j st.next with h | h
          · exact hlt j h
          · have hje : j = st.next := by omega
            subst hje
            exact ((hiff _).mp hmem).1
        · rw [hdel]
          simp [List.range_succ]
    · have hstop : flushFuel parts (n + 1) st = st := by
        simp [flushFuel, hmem]
      rw [hstop]
      exact ⟨hinv, hmem⟩

/-- One arrival preserves the invariant, with the arriving index joining
the arrived set. -/
lemma arrivePart_inv (parts : List (List Nat)) (arr : List Nat) (st : GetState)
    (i : Nat) (hinv : GetInv parts arr st) (hi : i ∉ arr) :
    GetInv parts (i :: arr) (arrivePart parts st i) ∧
    (arrivePart parts st i).next ∉ (arrivePart parts st i).ready := by
  obtain ⟨hnd, hiff, hlt, hdel⟩ := hinv
  have hinr : i ∉ st.ready := fun h => hi ((hiff i).mp h).1
  have hnexti : st.next ≤ i := by
    by_contra h
    push_neg at h
    exact hi (hlt i h)
  have hpre : GetInv parts (i :: arr) { st with ready := i :: st.ready } := by
    refine ⟨List.nodup_cons.mpr ⟨hinr, hnd⟩, ?_, ?_, hdel⟩
    · intro j
      simp only [List.mem_cons]
      constructor
      · rintro (rfl | hj)
        · exact ⟨Or.inl rfl, hnexti⟩
        · obtain ⟨h1, h2⟩ := (hiff j).mp hj
          exact ⟨Or.inr h1, h2⟩
      · rintro ⟨rfl | hj, hle⟩
        · exact Or.inl rfl
        · exact Or.inr ((hiff j).mpr ⟨hj, hle⟩)
    · intro j hj
      exact List.mem_cons_of_mem i (hlt j hj)
  exact flushFuel_inv parts (i :: arr) (i :: st.ready).length
    { st with ready := i :: st.ready } (le_refl _) hpre

/-- Folding a nodup batch of arrivals preserves the invariant. -/
lemma foldArrivals_inv (parts : List (List Nat)) :
    ∀ (rest arr : List Nat) (st : GetState), (arr ++ rest).Nodup →
      GetInv parts arr st → st.next ∉ st.ready →
      GetInv parts (arr ++ rest) (rest.foldl (arrivePart parts) st) ∧
      (rest.foldl (arrivePart parts) st).next ∉
        (rest.foldl (arrivePart parts) st).ready := by
  intro rest
  induction rest with
  | nil =>
    intro arr st hnd hinv hnr
    simpa using ⟨hinv, hnr⟩
  | cons i rest2 ih =>
    intro arr st hnd hinv hnr
    have hi : i ∉ arr := by
      intro hmem
      exact (List.nodup_append.mp hnd).2.2 hmem (List.mem_cons_self i rest2)
    obtain ⟨hinv2, hnr2⟩ := arrivePart_inv parts arr st i hinv hi
    have hcast : GetInv parts (arr ++ [i]) (arrivePart parts st i) :=
      GetInv_mem_congr parts (i :: arr) (arr ++ [i])
        (fun j => by simp [List.mem_cons, List.mem_append, or_comm])
        (arrivePart parts st i) hinv2
    have heq : arr ++ i :: rest2 = (arr ++ [i]) ++ rest2 := by simp
    rw [heq] at hnd ⊢
    exact ih (arr ++ [i]) (arrivePart parts st i) hnd hcast hnr2

/-- Reading each index of a list list back through getD reproduces it. -/
lemma flatten_map_getD_range (l : List (List Nat)) :
    ((List.range l.length).map (fun j => l.getD j [])).flatten = l.flatten := by
  congr 1
  apply List.ext_getElem
  · simp
  · intro i h1 h2
    simp only [List.getElem_map, List.getElem_range]
    exact List.getD_eq_getElem l [] (by simpa using h2)

/-- C5: the download order invariant — for every list of parts and every
interleaving of response arrivals (any permutation of the part indices),
the bytes the reorder buffer delivers to the caller are the concatenation
of the parts in index order. -/
theorem download_order_invariant (parts : List (List Nat)) (arrivals : List Nat)
    (hperm : arrivals.Perm (List.range parts.length)) :
    (runGetter parts arrivals).delivered = parts.flatten := by
  have hnd : arrivals.Nodup := hperm.nodup_iff.mpr (List.nodup_range _)
  have hmem : ∀ j, j ∈ arrivals ↔ j < parts.length := fun j => by
    rw [hperm.mem_iff, List.mem_range]
  have h0 : GetInv parts [] ⟨[], [], 0⟩ := by
    refine ⟨List.nodup_nil, ?_, ?_, ?_⟩
    · intro j
      simp
    · intro j hj
      exact absurd hj (Nat.not_lt_zero j)
    · simp
  obtain ⟨hinv, hnr⟩ := foldArrivals_inv parts arrivals [] ⟨[], [], 0⟩
    (by simpa using hnd) h0 (by simp)
  rw [List.nil_append] at hinv
  have hrg : runGetter parts arrivals = arrivals.foldl (arrivePart parts) ⟨[], [], 0⟩ := rfl
  rw [hrg]
  set st := arrivals.foldl (arrivePart parts) ⟨[], [], 0⟩ with hst
  obtain ⟨hndr, hiff, hlt, hdel⟩ := hinv
  have hle : st.next ≤ parts.length := by
    by_contra hgt
    push_neg at hgt
    have h1 := hlt parts.length hgt
    have h2 := (hmem parts.length).mp h1
    omega
  have hge : parts.length ≤ st.next := by
    by_contra hlt2
    push_neg at hlt2
    have h1 : st.next ∈ arrivals := (hmem st.next).mpr hlt2
    exact hnr ((hiff st.next).mpr ⟨h1, le_refl _⟩)
  have hn : st.next = parts.length := le_antisymm hle hge
  rw [hdel, hn, flatten_map_getD_range]

/-- Witness for C5: parts of sizes 2, 1, 2 arriving in the order 2, 0, 1
are delivered as parts 0, 1, 2 concatenated. -/
theorem download_order_invariant_witness :
    (runGetter [[1, 2], [3], [4, 5]] [2, 0, 1]).delivered =
      [[1, 2], [3], [4, 5]].flatten :=
  download_order_invariant [[1, 2], [3], [4, 5]] [2, 0, 1] (by decide)
